import Mathlib

/-!
# Verification of the ClassPlus video-URL decoder HTTP service (`src/app.py`)

This file shallowly embeds the Flask request handlers of `src/app.py` and the
contract of the two core components they call (the URL decoder and the token
client, whose implementations live outside the repository snapshot).

Modelling choices:

* JSON values are the inductive `Json`; Python truthiness (`if not x:`) is
  `Json.truthy`.
* Python exceptions are `Except String`; every fallible step (a `.get` on a
  non-dict, or a raising core call) propagates an `Except.error`, and every
  `try/except` in the handlers is an explicit `match` on that error, exactly
  following the control flow of `src/app.py`.
* Each handler returns the HTTP response it produces together with the exact
  ordered list of core-component calls it made (`List CoreCall`), so temporal
  claims ("X is never invoked after Y failed") are statements about this trace.
* The core components are a parameter (`structure Core`); `specCore` is one
  concrete instance, modelled from the spec, used to evaluate handlers on
  concrete requests.  Core operations receive a `World` argument standing for
  the invocation instant / outside state, so dependence on anything beyond the
  declared inputs is expressible.
-/

/-- A JSON value, as delivered by Flask's `request.get_json()`.
`Json.null` also stands for Python `None` (e.g. a missing key or an absent
request body). -/
inductive Json where
  | null : Json
  | str (s : String) : Json
  | num (n : Int) : Json
  | bool (b : Bool) : Json
  | arr (xs : List Json) : Json
  | obj (kvs : List (String × Json)) : Json

/-- Python truthiness of a JSON value (`if not x:` tests `truthy x = false`). -/
def Json.truthy : Json → Bool
  | .null => false
  | .str s => !s.isEmpty
  | .num n => n != 0
  | .bool b => b
  | .arr xs => !xs.isEmpty
  | .obj kvs => !kvs.isEmpty

/-- Is this value a JSON object (a Python `dict`)? -/
def Json.isObj : Json → Bool
  | .obj _ => true
  | _ => false

/-- Is this value a JSON array (a Python `list`)? -/
def Json.isArr : Json → Bool
  | .arr _ => true
  | _ => false

/-- The items of an array value (`[]` for non-arrays). -/
def Json.items : Json → List Json
  | .arr xs => xs
  | _ => []

/-- First binding of a key in an association list. -/
def Json.lookupKey : List (String × Json) → String → Option Json
  | [], _ => none
  | (k, v) :: rest, key => if k = key then some v else Json.lookupKey rest key

/-- Total field access: `d.get(k)` on an object (missing key ↦ `null`,
i.e. Python `None`); `null` on non-objects.  Handlers use the raising
variant `Json.getE` instead; this one is for stating properties. -/
def Json.get (j : Json) (k : String) : Json :=
  match j with
  | .obj kvs => (Json.lookupKey kvs k).getD .null
  | _ => .null

/-- Total field access with a default, as in Python `d.get(k, dflt)`. -/
def Json.getD (j : Json) (k : String) (dflt : Json) : Json :=
  match j with
  | .obj kvs => (Json.lookupKey kvs k).getD dflt
  | _ => dflt

/-- Python `x.get(k)`: raises `AttributeError` when `x` is not a dict. -/
def Json.getE (j : Json) (k : String) : Except String Json :=
  match j with
  | .obj _ => .ok (j.get k)
  | _ => .error "AttributeError: object has no attribute get"

/-- Python `x.get(k, dflt)`: raises `AttributeError` when `x` is not a dict. -/
def Json.getDE (j : Json) (k : String) (dflt : Json) : Except String Json :=
  match j with
  | .obj _ => .ok (j.getD k dflt)
  | _ => .error "AttributeError: object has no attribute get"

/-- The invocation instant / state of the outside world (current time, the
issuing authority's live state).  Core operations receive it so that
dependence on anything beyond the declared inputs can be expressed. -/
abbrev World := Nat

/-- One call made by a handler into a core component
(`ClassPlusClient` / `ClassPlusDecoder`), with the arguments passed. -/
inductive CoreCall where
  | validate (token : Json) : CoreCall
  | decode (encrypted_url token : Json) : CoreCall
  | sign (url token : Json) : CoreCall
  | tokenInfo (token : Json) : CoreCall
  | timestamp : CoreCall

/-- The interface of the two core components, as consumed by the handlers of
`src/app.py`.  Each operation may raise (`Except.error`), and receives the
`World` of its invocation.  Arguments are `Json` because the handlers pass
whatever the request payload contained. -/
structure Core where
  validate_token : World → Json → Except String Bool
  decode_url : World → Json → Json → Except String Json
  generate_playable_url : World → Json → Json → Except String Json
  get_token_info : World → Json → Except String Json
  get_timestamp : World → Except String Json

/-- An HTTP response: status code and JSON body. -/
structure HttpResponse where
  status : Nat
  body : Json

/-- The `{"error": ..., "code": ...}` envelope used by the handlers. -/
def errResp (status : Nat) (msg code : String) : HttpResponse :=
  ⟨status, .obj [("error", .str msg), ("code", .str code)]⟩

/-- The 500 response of the `except Exception` blocks of `/api/decode`,
`/api/batch-decode` and `/api/validate-token` (non-debug: `details` is
`None`). -/
def internalErrorResp : HttpResponse :=
  ⟨500, .obj [("error", .str "Internal server error"),
              ("code", .str "INTERNAL_ERROR"),
              ("details", .null)]⟩

/-- Handler `decode_video_url` for `POST /api/decode` (src/app.py lines
35–110).  `data` is what `request.get_json()` returned (`Json.null` for an
unparseable body).  Returns the response and the trace of core calls. -/
def decode_video_url (c : Core) (w : World) (data : Json) :
    HttpResponse × List CoreCall :=
  if !data.truthy then
    (errResp 400 "Invalid JSON payload" "INVALID_JSON", [])
  else
    match data.getE "token" with
    | .error _ => (internalErrorResp, [])
    | .ok token =>
      match data.getE "encrypted_url" with
      | .error _ => (internalErrorResp, [])
      | .ok encrypted_url =>
        match data.getE "video_id" with
        | .error _ => (internalErrorResp, [])
        | .ok video_id =>
          if !token.truthy then
            (errResp 400 "Token is required" "MISSING_TOKEN", [])
          else if !encrypted_url.truthy then
            (errResp 400 "Encrypted URL is required" "MISSING_URL", [])
          else
            match c.validate_token w token with
            | .error _ => (internalErrorResp, [.validate token])
            | .ok false =>
              (errResp 401 "Invalid or expired token" "INVALID_TOKEN",
               [.validate token])
            | .ok true =>
              match c.decode_url w encrypted_url token with
              | .error _ =>
                (internalErrorResp,
                 [.validate token, .decode encrypted_url token])
              | .ok decoded_url =>
                if !decoded_url.truthy then
                  (errResp 400 "Failed to decode URL" "DECODE_FAILED",
                   [.validate token, .decode encrypted_url token])
                else
                  match c.generate_playable_url w decoded_url token with
                  | .error _ =>
                    (internalErrorResp,
                     [.validate token, .decode encrypted_url token,
                      .sign decoded_url token])
                  | .ok playable_url =>
                    (⟨200, .obj [("status", .str "ok"),
                                 ("success", .bool true),
                                 ("url", playable_url),
                                 ("decoded_url", decoded_url),
                                 ("video_id", video_id)]⟩,
                     [.validate token, .decode encrypted_url token,
                      .sign decoded_url token])

/-- The per-item failure object appended by `batch_decode_urls`
(`{"video_id": ..., "success": False, "error": msg}`). -/
def failItem (video_id : Json) (msg : String) : Json :=
  .obj [("video_id", video_id), ("success", .bool false), ("error", .str msg)]

/-- The per-item success object appended by `batch_decode_urls`. -/
def successItem (video_id playable_url decoded_url : Json) : Json :=
  .obj [("video_id", video_id), ("success", .bool true),
        ("video_url", playable_url), ("decoded_url", decoded_url)]

/-- The body of the inner `try` of the `for url_data in urls` loop of
`batch_decode_urls` (src/app.py lines 163–191): either the result object for
this item, or the exception it raised, plus the core calls it made. -/
def batchItemTry (c : Core) (w : World) (token url_data : Json) :
    Except String Json × List CoreCall :=
  match url_data.getE "encrypted_url" with
  | .error e => (.error e, [])
  | .ok encrypted_url =>
    match url_data.getE "video_id" with
    | .error e => (.error e, [])
    | .ok video_id =>
      if !encrypted_url.truthy then
        (.ok (failItem video_id "Missing encrypted_url"), [])
      else
        match c.decode_url w encrypted_url token with
        | .error e => (.error e, [.decode encrypted_url token])
        | .ok decoded_url =>
          if decoded_url.truthy then
            match c.generate_playable_url w decoded_url token with
            | .error e =>
              (.error e,
               [.decode encrypted_url token, .sign decoded_url token])
            | .ok playable_url =>
              (.ok (successItem video_id playable_url decoded_url),
               [.decode encrypted_url token, .sign decoded_url token])
          else
            (.ok (failItem video_id "Failed to decode URL"),
             [.decode encrypted_url token])

/-- One iteration of the batch loop including its `except Exception` clause
(src/app.py lines 192–197).  Note the except clause itself evaluates
`url_data.get('video_id')`, which raises again when `url_data` is not a
dict; that second exception escapes the loop. -/
def batchItem (c : Core) (w : World) (token url_data : Json) :
    Except String Json × List CoreCall :=
  match batchItemTry c w token url_data with
  | (.ok r, tr) => (.ok r, tr)
  | (.error e, tr) =>
    match url_data.getE "video_id" with
    | .ok video_id => (.ok (failItem video_id e), tr)
    | .error e2 => (.error e2, tr)

/-- The `for url_data in urls` loop of `batch_decode_urls`: accumulates the
`results` list, or propagates an exception that escaped an iteration. -/
def batchLoop (c : Core) (w : World) (token : Json) :
    List Json → Except String (List Json) × List CoreCall
  | [] => (.ok [], [])
  | u :: us =>
    match batchItem c w token u with
    | (.error e, tr) => (.error e, tr)
    | (.ok r, tr) =>
      match batchLoop c w token us with
      | (.error e, tr2) => (.error e, tr ++ tr2)
      | (.ok rs, tr2) => (.ok (r :: rs), tr ++ tr2)

/-- The result object `batchItem` produced for an item (meaningful whenever
`batchItem` did not raise; `null` otherwise).  Being a function of the single
item, it expresses that each item's outcome depends on that item alone. -/
def itemRes (c : Core) (w : World) (token url_data : Json) : Json :=
  match (batchItem c w token url_data).1 with
  | .ok r => r
  | .error _ => .null

/-- The core calls `batchItem` made for a single item. -/
def itemTrace (c : Core) (w : World) (token url_data : Json) : List CoreCall :=
  (batchItem c w token url_data).2

/-- Handler `batch_decode_urls` for `POST /api/batch-decode` (src/app.py
lines 114–213). -/
def batch_decode_urls (c : Core) (w : World) (data : Json) :
    HttpResponse × List CoreCall :=
  if !data.truthy then
    (errResp 400 "Invalid JSON payload" "INVALID_JSON", [])
  else
    match data.getE "token" with
    | .error _ => (internalErrorResp, [])
    | .ok token =>
      match data.getDE "urls" (.arr []) with
      | .error _ => (internalErrorResp, [])
      | .ok urls =>
        if !token.truthy then
          (errResp 400 "Token is required" "MISSING_TOKEN", [])
        else if !urls.truthy || !urls.isArr then
          (errResp 400 "URLs array is required" "MISSING_URLS", [])
        else
          match c.validate_token w token with
          | .error _ => (internalErrorResp, [.validate token])
          | .ok false =>
            (errResp 401 "Invalid or expired token" "INVALID_TOKEN",
             [.validate token])
          | .ok true =>
            match batchLoop c w token urls.items with
            | (.error _, tr) => (internalErrorResp, .validate token :: tr)
            | (.ok results, tr) =>
              match c.get_timestamp w with
              | .error _ =>
                (internalErrorResp, .validate token :: (tr ++ [.timestamp]))
              | .ok ts =>
                (⟨200, .obj [("success", .bool true),
                             ("results", .arr results),
                             ("total", .num urls.items.length),
                             ("successful",
                              .num (results.filter
                                (fun r => (r.get "success").truthy)).length),
                             ("timestamp", ts)]⟩,
                 .validate token :: (tr ++ [.timestamp]))

/-- Handler `validate_token` for `POST /api/validate-token` (src/app.py
lines 217–258). -/
def validate_token (c : Core) (w : World) (data : Json) :
    HttpResponse × List CoreCall :=
  if !data.truthy then
    (errResp 400 "Invalid JSON payload" "INVALID_JSON", [])
  else
    match data.getE "token" with
    | .error _ => (internalErrorResp, [])
    | .ok token =>
      if !token.truthy then
        (errResp 400 "Token is required" "MISSING_TOKEN", [])
      else
        match c.validate_token w token with
        | .error _ => (internalErrorResp, [.validate token])
        | .ok true =>
          match c.get_token_info w token with
          | .error _ => (internalErrorResp, [.validate token, .tokenInfo token])
          | .ok token_info =>
            match c.get_timestamp w with
            | .error _ =>
              (internalErrorResp,
               [.validate token, .tokenInfo token, .timestamp])
            | .ok ts =>
              (⟨200, .obj [("valid", .bool true),
                           ("token_info", token_info),
                           ("timestamp", ts)]⟩,
               [.validate token, .tokenInfo token, .timestamp])
        | .ok false =>
          match c.get_timestamp w with
          | .error _ => (internalErrorResp, [.validate token, .timestamp])
          | .ok ts =>
            (⟨401, .obj [("valid", .bool false),
                         ("error", .str "Invalid or expired token"),
                         ("timestamp", ts)]⟩,
             [.validate token, .timestamp])

/-- A query-string parameter as seen by the handler: Python `None` when
absent, otherwise the string value. -/
def paramJson : Option String → Json
  | none => .null
  | some s => .str s

/-- The `{"status": "error", "success": False, "error": msg}` envelope of the
simple GET endpoint. -/
def simpleErrResp (status : Nat) (msg : String) : HttpResponse :=
  ⟨status, .obj [("status", .str "error"), ("success", .bool false),
                 ("error", .str msg)]⟩

/-- Handler `decode_video_url_simple` for `GET /api` (src/app.py lines
262–315).  `video_url` and `token` are the `url` and `token` query
parameters (`none` when absent). -/
def decode_video_url_simple (c : Core) (w : World)
    (video_url token : Option String) : HttpResponse × List CoreCall :=
  let vu := paramJson video_url
  let tk := paramJson token
  if !vu.truthy then
    (simpleErrResp 400 "URL parameter is required", [])
  else if !tk.truthy then
    (simpleErrResp 400 "Token parameter is required", [])
  else
    match c.validate_token w tk with
    | .error _ => (simpleErrResp 500 "Internal server error", [.validate tk])
    | .ok false =>
      (simpleErrResp 401 "Invalid or expired token", [.validate tk])
    | .ok true =>
      match c.generate_playable_url w vu tk with
      | .error _ =>
        (simpleErrResp 500 "Internal server error", [.validate tk, .sign vu tk])
      | .ok playable_url =>
        (⟨200, .obj [("status", .str "ok"), ("success", .bool true),
                     ("url", playable_url)]⟩,
         [.validate tk, .sign vu tk])

/-- Does the string start with `expired-`?  (Structural on the character
list, so that concrete instances evaluate definitionally.) -/
def strHasExpired (s : String) : Bool :=
  match s.data with
  | 'e' :: 'x' :: 'p' :: 'i' :: 'r' :: 'e' :: 'd' :: '-' :: _ => true
  | _ => false

/-- Does the string start with `enc:`? -/
def strHasEnc (s : String) : Bool :=
  match s.data with
  | 'e' :: 'n' :: 'c' :: ':' :: _ => true
  | _ => false

/-- The string with its first four characters removed. -/
def strEncPayload (s : String) : String :=
  String.mk (s.data.drop 4)

/-- Modelled from the spec: the core components `ClassPlusDecoder`
(`utils/decoder.py`) and `ClassPlusClient` (`utils/classplus_client.py`) are
imported by `src/app.py` but their implementations are not part of the
repository snapshot.  This instance realises exactly the contract §4 and §6
of the spec fix: `validate_token` is fail-closed and never raises on
malformed input; `decode_url` is deterministic in the pair
(`encrypted_url`, `token`) — it ignores the `World` — and returns the empty
string as its failure sentinel; `generate_playable_url` attaches
token-derived, time-dependent authorization; `get_timestamp` returns the
current instant.  The concrete encoding scheme (here: a literal `enc:`
prefix) is a placeholder for the unspecified cipher. -/
def specCore : Core where
  validate_token := fun _ t =>
    match t with
    | .str s => .ok (!s.data.isEmpty && !strHasExpired s)
    | _ => .ok false
  decode_url := fun _ e t =>
    match e, t with
    | .str s, .str _ =>
      .ok (if strHasEnc s then .str (strEncPayload s) else .str "")
    | _, _ => .error "AttributeError: startswith"
  generate_playable_url := fun w d t =>
    match d, t with
    | .str ds, .str ts => .ok (.str (ds ++ "?sig=" ++ ts ++ "-" ++ toString w))
    | _, _ => .error "AttributeError: no string"
  get_token_info := fun _ t =>
    .ok (.obj [("subject", t), ("expiry", .num 9999999999), ("scopes", .arr [])])
  get_timestamp := fun w => .ok (.num (Int.ofNat w))

/-- A well-formed batch entry whose URL decodes under `specCore`. -/
def goodEntry : Json :=
  .obj [("encrypted_url", .str "enc:vid"), ("video_id", .str "g1")]

/-- A request whose token fails validation under `specCore`, with all other
fields well-formed (for both `/api/decode` and `/api/batch-decode`). -/
def dataC1 : Json :=
  .obj [("token", .str "expired-abc"), ("encrypted_url", .str "enc:x"),
        ("urls", .arr [goodEntry])]

/-- A batch request with a valid token and one malformed entry (its
`encrypted_url` is missing). -/
def dataC3 : Json :=
  .obj [("token", .str "tok"), ("urls", .arr [.obj [("video_id", .str "v1")]])]

/-- A `/api/decode` payload whose encrypted URL is not decodable under
`specCore` (no `enc:` prefix), with a valid token. -/
def dataC4 : Json :=
  .obj [("token", .str "tok"), ("encrypted_url", .str "plain")]

/-- A batch request with a valid token whose first entry is not a JSON
object and whose second entry is well-formed and decodable. -/
def dataC5 : Json :=
  .obj [("token", .str "tok"), ("urls", .arr [.str "bad", goodEntry])]

/-- Five batch entries: three decodable under `specCore`, two malformed
(missing `encrypted_url`). -/
def urlsC6 : List Json :=
  [ .obj [("encrypted_url", .str "enc:a"), ("video_id", .str "v1")],
    .obj [("encrypted_url", .str "enc:b"), ("video_id", .str "v2")],
    .obj [("encrypted_url", .str "enc:c"), ("video_id", .str "v3")],
    .obj [("video_id", .str "v4")],
    .obj [("video_id", .str "v5")] ]

/-- The batch request holding `urlsC6` with a valid token. -/
def dataC6 : Json := .obj [("token", .str "tok"), ("urls", .arr urlsC6)]

/-- The results `batch_decode_urls specCore 0 dataC6` computes. -/
def rsC6 : List Json :=
  [ successItem (.str "v1") (.str "a?sig=tok-0") (.str "a"),
    successItem (.str "v2") (.str "b?sig=tok-0") (.str "b"),
    successItem (.str "v3") (.str "c?sig=tok-0") (.str "c"),
    failItem (.str "v4") "Missing encrypted_url",
    failItem (.str "v5") "Missing encrypted_url" ]

/-- The loop trace `batchLoop specCore 0 (.str "tok") urlsC6` produces. -/
def trC6 : List CoreCall :=
  [ .decode (.str "enc:a") (.str "tok"), .sign (.str "a") (.str "tok"),
    .decode (.str "enc:b") (.str "tok"), .sign (.str "b") (.str "tok"),
    .decode (.str "enc:c") (.str "tok"), .sign (.str "c") (.str "tok") ]

/-- Two well-formed batch entries neither of which decodes under
`specCore`: every item of the batch fails. -/
def urlsC9 : List Json :=
  [ .obj [("encrypted_url", .str "plain1"), ("video_id", .str "p1")],
    .obj [("encrypted_url", .str "plain2"), ("video_id", .str "p2")] ]

/-- The batch request holding `urlsC9` with a valid token. -/
def dataC9 : Json := .obj [("token", .str "tok"), ("urls", .arr urlsC9)]

/-- A payload with a truthy `encrypted_url` and no token. -/
def dataNoToken : Json := .obj [("encrypted_url", .str "e")]

/-- A batch entry that is an object but has no `encrypted_url`. -/
def entryNoUrl : Json := .obj [("video_id", .str "vX")]

/-- Two object entries: one decodable, one whose URL is not decodable. -/
def usC5 : List Json := [goodEntry, .obj [("encrypted_url", .str "plainz")]]

/-- On an object, the raising field access succeeds and agrees with the
total one. -/
theorem Json.getE_obj {j : Json} (h : j.isObj = true) (k : String) :
    j.getE k = Except.ok (j.get k) := by
  cases j <;> simp_all [Json.isObj, Json.getE]

/-- On an object, the raising defaulted access succeeds and agrees with the
total one. -/
theorem Json.getDE_obj {j : Json} (h : j.isObj = true) (k : String)
    (dflt : Json) : j.getDE k dflt = Except.ok (j.getD k dflt) := by
  cases j <;> simp_all [Json.isObj, Json.getDE]

/-- A value one of whose fields is truthy is itself truthy (a non-empty
dict). -/
theorem Json.truthy_of_get {j : Json} {k : String}
    (h : (j.get k).truthy = true) : j.truthy = true := by
  cases j <;> simp_all [Json.get, Json.truthy]
  rename_i kvs
  cases kvs <;> simp_all [Json.lookupKey, Json.truthy]

/-- Every core call `/api/decode` makes is either a token validation, or a
decode/sign call whose token argument passed validation in this very
request. -/
theorem decode_route_calls (c : Core) (w : World) (d : Json) :
    ∀ x ∈ (decode_video_url c w d).2,
      (∃ t, x = CoreCall.validate t) ∨
      (∃ u t, (x = CoreCall.decode u t ∨ x = CoreCall.sign u t) ∧
        c.validate_token w t = Except.ok true) := by
  intro x hx
  unfold decode_video_url at hx
  split at hx
  · simp at hx
  · split at hx
    · simp at hx
    · split at hx
      · simp at hx
      · split at hx
        · simp at hx
        · split at hx
          · simp at hx
          · split at hx
            · simp at hx
            · split at hx
              · simp at hx
                exact Or.inl ⟨_, hx⟩
              · simp at hx
                exact Or.inl ⟨_, hx⟩
              · rename_i hv
                split at hx
                · simp at hx
                  rcases hx with rfl | rfl
                  · exact Or.inl ⟨_, rfl⟩
                  · exact Or.inr ⟨_, _, Or.inl rfl, hv⟩
                · split at hx
                  · simp at hx
                    rcases hx with rfl | rfl
                    · exact Or.inl ⟨_, rfl⟩
                    · exact Or.inr ⟨_, _, Or.inl rfl, hv⟩
                  · split at hx
                    · simp at hx
                      rcases hx with rfl | rfl | rfl
                      · exact Or.inl ⟨_, rfl⟩
                      · exact Or.inr ⟨_, _, Or.inl rfl, hv⟩
                      · exact Or.inr ⟨_, _, Or.inr rfl, hv⟩
                    · simp at hx
                      rcases hx with rfl | rfl | rfl
                      · exact Or.inl ⟨_, rfl⟩
                      · exact Or.inr ⟨_, _, Or.inl rfl, hv⟩
                      · exact Or.inr ⟨_, _, Or.inr rfl, hv⟩

/-- The calls one batch-loop iteration's `try` body makes are decode/sign
calls carrying the loop's token. -/
theorem batchItemTry_calls (c : Core) (w : World) (token u : Json) :
    ∀ x ∈ (batchItemTry c w token u).2,
      (∃ e, x = CoreCall.decode e token) ∨
      (∃ d2, x = CoreCall.sign d2 token) := by
  intro x hx
  unfold batchItemTry at hx
  split at hx
  · simp at hx
  · split at hx
    · simp at hx
    · split at hx
      · simp at hx
      · split at hx
        · simp at hx
          exact Or.inl ⟨_, hx⟩
        · split at hx
          · split at hx
            · simp at hx
              rcases hx with rfl | rfl
              · exact Or.inl ⟨_, rfl⟩
              · exact Or.inr ⟨_, rfl⟩
            · simp at hx
              rcases hx with rfl | rfl
              · exact Or.inl ⟨_, rfl⟩
              · exact Or.inr ⟨_, rfl⟩
          · simp at hx
            exact Or.inl ⟨_, hx⟩

/-- The calls one batch-loop iteration makes (including its `except`
clause) are decode/sign calls carrying the loop's token. -/
theorem batchItem_calls (c : Core) (w : World) (token u : Json) :
    ∀ x ∈ (batchItem c w token u).2,
      (∃ e, x = CoreCall.decode e token) ∨
      (∃ d2, x = CoreCall.sign d2 token) := by
  intro x hx
  unfold batchItem at hx
  split at hx
  · rename_i r tr heq
    exact batchItemTry_calls c w token u x (by rw [heq]; simpa using hx)
  · rename_i e tr heq
    split at hx
    · exact batchItemTry_calls c w token u x (by rw [heq]; simpa using hx)
    · exact batchItemTry_calls c w token u x (by rw [heq]; simpa using hx)

/-- All calls the batch loop makes are decode/sign calls carrying the
loop's token. -/
theorem batchLoop_calls (c : Core) (w : World) (token : Json)
    (us : List Json) :
    ∀ x ∈ (batchLoop c w token us).2,
      (∃ e, x = CoreCall.decode e token) ∨
      (∃ d2, x = CoreCall.sign d2 token) := by
  induction us with
  | nil => intro x hx; simp [batchLoop] at hx
  | cons u rest ih =>
    intro x hx
    unfold batchLoop at hx
    split at hx
    · rename_i e tr heq
      exact batchItem_calls c w token u x (by rw [heq]; simpa using hx)
    · rename_i r tr heq
      split at hx
      · rename_i e2 tr2 heq2
        simp at hx
        rcases hx with h | h
        · exact batchItem_calls c w token u x (by rw [heq]; simpa using h)
        · exact ih x (by rw [heq2]; simpa using h)
      · rename_i rs tr2 heq2
        simp at hx
        rcases hx with h | h
        · exact batchItem_calls c w token u x (by rw [heq]; simpa using h)
        · exact ih x (by rw [heq2]; simpa using h)

/-- Every core call `/api/batch-decode` makes is a token validation, the
timestamp read, or a decode/sign call whose token argument passed
validation in this very request. -/
theorem batch_route_calls (c : Core) (w : World) (d : Json) :
    ∀ x ∈ (batch_decode_urls c w d).2,
      (∃ t, x = CoreCall.validate t) ∨ x = CoreCall.timestamp ∨
      (∃ u t, (x = CoreCall.decode u t ∨ x = CoreCall.sign u t) ∧
        c.validate_token w t = Except.ok true) := by
  intro x hx
  unfold batch_decode_urls at hx
  split at hx
  · simp at hx
  · split at hx
    · simp at hx
    · split at hx
      · simp at hx
      · split at hx
        · simp at hx
        · split at hx
          · simp at hx
          · split at hx
            · simp at hx
              exact Or.inl ⟨_, hx⟩
            · simp at hx
              exact Or.inl ⟨_, hx⟩
            · rename_i hv
              split at hx
              · rename_i e tr heq
                simp at hx
                rcases hx with rfl | h
                · exact Or.inl ⟨_, rfl⟩
                · rcases batchLoop_calls c w _ _ x
                      (by rw [heq]; simpa using h) with ⟨e2, rfl⟩ | ⟨d2, rfl⟩
                  · exact Or.inr (Or.inr ⟨_, _, Or.inl rfl, hv⟩)
                  · exact Or.inr (Or.inr ⟨_, _, Or.inr rfl, hv⟩)
              · rename_i results tr heq
                split at hx
                · simp at hx
                  rcases hx with rfl | h | rfl
                  · exact Or.inl ⟨_, rfl⟩
                  · rcases batchLoop_calls c w _ _ x
                        (by rw [heq]; simpa using h) with ⟨e3, rfl⟩ | ⟨d3, rfl⟩
                    · exact Or.inr (Or.inr ⟨_, _, Or.inl rfl, hv⟩)
                    · exact Or.inr (Or.inr ⟨_, _, Or.inr rfl, hv⟩)
                  · exact Or.inr (Or.inl rfl)
                · simp at hx
                  rcases hx with rfl | h | rfl
                  · exact Or.inl ⟨_, rfl⟩
                  · rcases batchLoop_calls c w _ _ x
                        (by rw [heq]; simpa using h) with ⟨e3, rfl⟩ | ⟨d3, rfl⟩
                    · exact Or.inr (Or.inr ⟨_, _, Or.inl rfl, hv⟩)
                    · exact Or.inr (Or.inr ⟨_, _, Or.inr rfl, hv⟩)
                  · exact Or.inr (Or.inl rfl)

/-- Every core call `/api/validate-token` makes is a token validation, the
timestamp read, or a `get_token_info` call whose token argument passed
validation in this very request. -/
theorem validate_route_calls (c : Core) (w : World) (d : Json) :
    ∀ x ∈ (validate_token c w d).2,
      (∃ t, x = CoreCall.validate t) ∨ x = CoreCall.timestamp ∨
      (∃ t, x = CoreCall.tokenInfo t ∧
        c.validate_token w t = Except.ok true) := by
  intro x hx
  unfold validate_token at hx
  split at hx
  · simp at hx
  · split at hx
    · simp at hx
    · split at hx
      · simp at hx
      · split at hx
        · simp at hx
          exact Or.inl ⟨_, hx⟩
        · rename_i hv
          split at hx
          · simp at hx
            rcases hx with rfl | rfl
            · exact Or.inl ⟨_, rfl⟩
            · exact Or.inr (Or.inr ⟨_, rfl, hv⟩)
          · split at hx
            · simp at hx
              rcases hx with rfl | rfl | rfl
              · exact Or.inl ⟨_, rfl⟩
              · exact Or.inr (Or.inr ⟨_, rfl, hv⟩)
              · exact Or.inr (Or.inl rfl)
            · simp at hx
              rcases hx with rfl | rfl | rfl
              · exact Or.inl ⟨_, rfl⟩
              · exact Or.inr (Or.inr ⟨_, rfl, hv⟩)
              · exact Or.inr (Or.inl rfl)
        · split at hx
          · simp at hx
            rcases hx with rfl | rfl
            · exact Or.inl ⟨_, rfl⟩
            · exact Or.inr (Or.inl rfl)
          · simp at hx
            rcases hx with rfl | rfl
            · exact Or.inl ⟨_, rfl⟩
            · exact Or.inr (Or.inl rfl)

/-- Every core call `GET /api` makes is a token validation or a sign call
whose token argument passed validation in this very request; in
particular it never calls `decode_url` or `get_token_info`. -/
theorem simple_route_calls (c : Core) (w : World) (vu tk : Option String) :
    ∀ x ∈ (decode_video_url_simple c w vu tk).2,
      (∃ t, x = CoreCall.validate t) ∨
      (∃ u t, x = CoreCall.sign u t ∧
        c.validate_token w t = Except.ok true) := by
  intro x hx
  simp only [decode_video_url_simple] at hx
  split at hx
  · simp at hx
  · split at hx
    · simp at hx
    · split at hx
      · simp at hx
        exact Or.inl ⟨_, hx⟩
      · simp at hx
        exact Or.inl ⟨_, hx⟩
      · rename_i hv
        split at hx
        · simp at hx
          rcases hx with rfl | rfl
          · exact Or.inl ⟨_, rfl⟩
          · exact Or.inr ⟨_, _, rfl, hv⟩
        · simp at hx
          rcases hx with rfl | rfl
          · exact Or.inl ⟨_, rfl⟩
          · exact Or.inr ⟨_, _, rfl, hv⟩

/-- Projecting the per-item result out of a successful `batchItem` run. -/
theorem itemRes_eq {c : Core} {w : World} {token u r : Json}
    (h : (batchItem c w token u).1 = Except.ok r) :
    itemRes c w token u = r := by
  unfold itemRes
  rw [h]

/-- An object entry never lets an exception escape its loop iteration: the
`except` clause always produces a per-item result. -/
theorem batchItem_obj_ex (c : Core) (w : World) (token : Json) {u : Json}
    (h : u.isObj = true) :
    ∃ r tr, batchItem c w token u = (Except.ok r, tr) := by
  rcases htry : batchItemTry c w token u with ⟨res, tr⟩
  rcases res with e | r
  · refine ⟨failItem (u.get "video_id") e, tr, ?_⟩
    simp [batchItem, htry, Json.getE_obj h]
  · refine ⟨r, tr, ?_⟩
    simp [batchItem, htry]

/-- When every entry is an object, the batch loop neither raises nor
reorders: its results and calls are the pointwise images of the entries,
each depending on its own entry alone. -/
theorem batchLoop_all_obj (c : Core) (w : World) (token : Json)
    {us : List Json} (h : ∀ u ∈ us, u.isObj = true) :
    batchLoop c w token us =
      (Except.ok (us.map (itemRes c w token)),
       (us.map (itemTrace c w token)).flatten) := by
  induction us with
  | nil => simp [batchLoop]
  | cons u rest ih =>
    obtain ⟨r, tr, hitem⟩ := batchItem_obj_ex c w token (h u (by simp))
    have hres : itemRes c w token u = r := itemRes_eq (by rw [hitem])
    have htr : itemTrace c w token u = tr := by unfold itemTrace; rw [hitem]
    have hrest := ih (fun v hv => h v (by simp [hv]))
    simp [batchLoop, hitem, hrest, hres, htr]

/-- A successful batch loop returns exactly the pointwise item results, in
input order. -/
theorem batchLoop_ok_map (c : Core) (w : World) (token : Json) :
    ∀ {us rs : List Json} {tr : List CoreCall},
      batchLoop c w token us = (Except.ok rs, tr) →
      rs = us.map (itemRes c w token) := by
  intro us
  induction us with
  | nil =>
    intro rs tr h
    simp [batchLoop] at h
    rw [h.1]
    simp
  | cons u rest ih =>
    intro rs tr h
    unfold batchLoop at h
    split at h
    · simp at h
    · rename_i r tr0 heq
      split at h
      · simp at h
      · rename_i rs2 tr2 heq2
        simp at h
        rw [← h.1]
        simp [itemRes_eq (by rw [heq]), ih heq2]

/-- Every result a loop iteration appends carries a boolean `success`
field. -/
theorem batchItemTry_ok_success {c : Core} {w : World} {token u r : Json}
    (h : (batchItemTry c w token u).1 = Except.ok r) :
    r.get "success" = Json.bool true ∨ r.get "success" = Json.bool false := by
  unfold batchItemTry at h
  split at h
  · simp at h
  · split at h
    · simp at h
    · split at h
      · simp at h
        exact Or.inr (by rw [← h]; rfl)
      · split at h
        · simp at h
        · split at h
          · split at h
            · simp at h
            · simp at h
              exact Or.inl (by rw [← h]; rfl)
          · simp at h
            exact Or.inr (by rw [← h]; rfl)

/-- Every result `batchItem` produces carries a boolean `success` field. -/
theorem batchItem_ok_success {c : Core} {w : World} {token u r : Json}
    (h : (batchItem c w token u).1 = Except.ok r) :
    r.get "success" = Json.bool true ∨ r.get "success" = Json.bool false := by
  unfold batchItem at h
  split at h
  · rename_i r2 tr heq
    have : (batchItemTry c w token u).1 = Except.ok r2 := by rw [heq]
    simp at h
    exact h ▸ batchItemTry_ok_success this
  · rename_i e tr heq
    split at h
    · simp at h
      exact Or.inr (by rw [← h]; rfl)
    · simp at h

/-- Every result of a successful batch loop carries a boolean `success`
field. -/
theorem batchLoop_ok_success (c : Core) (w : World) (token : Json) :
    ∀ {us rs : List Json} {tr : List CoreCall},
      batchLoop c w token us = (Except.ok rs, tr) →
      ∀ r ∈ rs, r.get "success" = Json.bool true ∨
        r.get "success" = Json.bool false := by
  intro us
  induction us with
  | nil =>
    intro rs tr h
    simp [batchLoop] at h
    rw [h.1]
    simp
  | cons u rest ih =>
    intro rs tr h
    unfold batchLoop at h
    split at h
    · simp at h
    · rename_i r tr0 heq
      split at h
      · simp at h
      · rename_i rs2 tr2 heq2
        simp at h
        rw [← h.1]
        intro r2 hr2
        rcases List.mem_cons.mp hr2 with rfl | hmem
        · exact batchItem_ok_success (by rw [heq])
        · exact ih heq2 r2 hmem

/-- Reaching the 200 response of `/api/batch-decode`: with an object
payload, a truthy token, a non-empty urls array, a token that validates, a
loop that did not raise, and a timestamp read, the handler's exact response
and call trace. -/
theorem batch_route_200 (c : Core) (w : World) (data : Json)
    (us rs : List Json) (tr : List CoreCall) (ts : Json)
    (hobj : data.isObj = true)
    (ht : (data.get "token").truthy = true)
    (hurls : data.getD "urls" (Json.arr []) = Json.arr us)
    (hne : us ≠ [])
    (hv : c.validate_token w (data.get "token") = Except.ok true)
    (hloop : batchLoop c w (data.get "token") us = (Except.ok rs, tr))
    (hts : c.get_timestamp w = Except.ok ts) :
    batch_decode_urls c w data =
      (⟨200, Json.obj [("success", Json.bool true),
                       ("results", Json.arr rs),
                       ("total", Json.num us.length),
                       ("successful",
                        Json.num (rs.filter
                          (fun r => (r.get "success").truthy)).length),
                       ("timestamp", ts)]⟩,
       CoreCall.validate (data.get "token") ::
         (tr ++ [CoreCall.timestamp])) := by
  have htr : data.truthy = true := Json.truthy_of_get ht
  have hne2 : us.isEmpty = false := by simpa using hne
  have h1 : (Json.arr us).truthy = true := by simp [Json.truthy, hne2]
  have h2 : (Json.arr us).isArr = true := rfl
  have h3 : (Json.arr us).items = us := rfl
  simp [batch_decode_urls, htr, Json.getE_obj hobj, Json.getDE_obj hobj, ht,
        hurls, h1, h2, h3, hv, hloop, hts]

/-- C1: for `/api/decode` and `/api/batch-decode`, when `validate_token`
returns false the handler answers 401 with exactly one core call (the
validation itself), so neither `decode_url` nor `generate_playable_url`
runs; moreover, on any request whatsoever, every decode/sign call these two
handlers make carries a token for which validation returned true, so a
playable URL is never generated from a token that failed validation. -/
theorem claim_C1_invalid_token_short_circuits (c : Core) (w : World)
    (data : Json)
    (hobj : data.isObj = true)
    (ht : (data.get "token").truthy = true)
    (hu : (data.get "encrypted_url").truthy = true)
    (hut : (data.getD "urls" (Json.arr [])).truthy = true)
    (hua : (data.getD "urls" (Json.arr [])).isArr = true)
    (hv : c.validate_token w (data.get "token") = Except.ok false) :
    decode_video_url c w data =
      (errResp 401 "Invalid or expired token" "INVALID_TOKEN",
       [CoreCall.validate (data.get "token")]) ∧
    batch_decode_urls c w data =
      (errResp 401 "Invalid or expired token" "INVALID_TOKEN",
       [CoreCall.validate (data.get "token")]) ∧
    (∀ d u t, (CoreCall.decode u t ∈ (decode_video_url c w d).2 ∨
               CoreCall.sign u t ∈ (decode_video_url c w d).2) →
       c.validate_token w t = Except.ok true) ∧
    (∀ d u t, (CoreCall.decode u t ∈ (batch_decode_urls c w d).2 ∨
               CoreCall.sign u t ∈ (batch_decode_urls c w d).2) →
       c.validate_token w t = Except.ok true) := by
  have htr : data.truthy = true := Json.truthy_of_get ht
  refine ⟨?_, ?_, ?_, ?_⟩
  · simp [decode_video_url, htr, Json.getE_obj hobj, ht, hu, hv]
  · simp [batch_decode_urls, htr, Json.getE_obj hobj, Json.getDE_obj hobj,
          ht, hut, hua, hv]
  · intro d u t h
    rcases h with h | h
    · rcases decode_route_calls c w d _ h with ⟨t2, he⟩ | ⟨u2, t2, hor, hv2⟩
      · simp at he
      · rcases hor with he | he
        · simp at he
          rw [he.2]
          exact hv2
        · simp at he
    · rcases decode_route_calls c w d _ h with ⟨t2, he⟩ | ⟨u2, t2, hor, hv2⟩
      · simp at he
      · rcases hor with he | he
        · simp at he
        · simp at he
          rw [he.2]
          exact hv2
  · intro d u t h
    rcases h with h | h
    · rcases batch_route_calls c w d _ h with ⟨t2, he⟩ | he | ⟨u2, t2, hor, hv2⟩
      · simp at he
      · simp at he
      · rcases hor with he | he
        · simp at he
          rw [he.2]
          exact hv2
        · simp at he
    · rcases batch_route_calls c w d _ h with ⟨t2, he⟩ | he | ⟨u2, t2, hor, hv2⟩
      · simp at he
      · simp at he
      · rcases hor with he | he
        · simp at he
        · simp at he
          rw [he.2]
          exact hv2

/-- C1 witness: a concrete request whose token `"expired-abc"` fails
validation under `specCore` is answered 401 by both handlers, with the
validation as the only core call. -/
theorem claim_C1_witness :
    decode_video_url specCore 0 dataC1 =
      (errResp 401 "Invalid or expired token" "INVALID_TOKEN",
       [CoreCall.validate (Json.str "expired-abc")]) ∧
    batch_decode_urls specCore 0 dataC1 =
      (errResp 401 "Invalid or expired token" "INVALID_TOKEN",
       [CoreCall.validate (Json.str "expired-abc")]) := by
  have h := claim_C1_invalid_token_short_circuits specCore 0 dataC1
    rfl rfl rfl rfl rfl rfl
  exact ⟨h.1, h.2.1⟩

/-- C2: `get_token_info` is called only by the `/api/validate-token`
handler, and only on a token for which `validate_token` returned true in
that very request; no other handler ever calls it. -/
theorem claim_C2_token_info_after_validation (c : Core) (w : World)
    (data d1 d2 : Json) (vu tk : Option String) :
    (∀ t, CoreCall.tokenInfo t ∈ (validate_token c w data).2 →
       c.validate_token w t = Except.ok true) ∧
    (∀ t, CoreCall.tokenInfo t ∈ (validate_token c w data).2 →
       ∃ post, (validate_token c w data).2 = CoreCall.validate t :: post ∧
         CoreCall.tokenInfo t ∈ post) ∧
    (∀ t, CoreCall.tokenInfo t ∉ (decode_video_url c w d1).2) ∧
    (∀ t, CoreCall.tokenInfo t ∉ (batch_decode_urls c w d2).2) ∧
    (∀ t, CoreCall.tokenInfo t ∉ (decode_video_url_simple c w vu tk).2) := by
  refine ⟨?_, ?_, ?_, ?_, ?_⟩
  · intro t h
    rcases validate_route_calls c w data _ h with ⟨t2, he⟩ | he | ⟨t2, he, hv2⟩
    · simp at he
    · simp at he
    · simp at he
      rw [he]
      exact hv2
  · intro t h
    unfold validate_token at h
    split at h
    · simp at h
    · rename_i hdt
      split at h
      · simp at h
      · rename_i token hget
        split at h
        · simp at h
        · rename_i htt
          split at h
          · simp at h
          · rename_i hvt
            split at h
            · rename_i e hti
              simp at h
              subst h
              refine ⟨[CoreCall.tokenInfo t], ?_, by simp⟩
              have hcomp : validate_token c w data =
                  (internalErrorResp,
                   [CoreCall.validate t, CoreCall.tokenInfo t]) := by
                simp [validate_token, hdt, hget, htt, hvt, hti]
              rw [hcomp]
            · rename_i token_info hti
              split at h
              · rename_i e hts
                simp at h
                subst h
                refine ⟨[CoreCall.tokenInfo t, CoreCall.timestamp],
                  ?_, by simp⟩
                have hcomp : validate_token c w data =
                    (internalErrorResp,
                     [CoreCall.validate t, CoreCall.tokenInfo t,
                      CoreCall.timestamp]) := by
                  simp [validate_token, hdt, hget, htt, hvt, hti, hts]
                rw [hcomp]
              · rename_i ts hts
                simp at h
                subst h
                refine ⟨[CoreCall.tokenInfo t, CoreCall.timestamp],
                  ?_, by simp⟩
                have hcomp : (validate_token c w data).2 =
                    [CoreCall.validate t, CoreCall.tokenInfo t,
                     CoreCall.timestamp] := by
                  simp [validate_token, hdt, hget, htt, hvt, hti, hts]
                rw [hcomp]
          · rename_i hvt
            split at h
            · simp at h
            · simp at h
  · intro t h
    rcases decode_route_calls c w d1 _ h with ⟨t2, he⟩ | ⟨u2, t2, hor, hv2⟩
    · simp at he
    · rcases hor with he | he <;> simp at he
  · intro t h
    rcases batch_route_calls c w d2 _ h with ⟨t2, he⟩ | he | ⟨u2, t2, hor, hv2⟩
    · simp at he
    · simp at he
    · rcases hor with he | he <;> simp at he
  · intro t h
    rcases simple_route_calls c w vu tk _ h with ⟨t2, he⟩ | ⟨u2, t2, he, hv2⟩
    · simp at he
    · simp at he

/-- C3 counterexample: a batch request with a valid token whose only entry
is malformed (no `encrypted_url`).  The claim says such input errors are
detected before any core call and surfaced as 400-class responses; but the
handler first calls `validate_token` (a core call) and then answers 200,
reporting the malformed entry only as a per-item failure. -/
theorem claim_C3_counterexample :
    (batch_decode_urls specCore 0 dataC3).1.status = 200 ∧
    CoreCall.validate (Json.str "tok") ∈ (batch_decode_urls specCore 0 dataC3).2 := by
  have h : batch_decode_urls specCore 0 dataC3 =
      (⟨200, Json.obj [("success", Json.bool true),
                       ("results",
                        Json.arr [failItem (Json.str "v1")
                          "Missing encrypted_url"]),
                       ("total", Json.num 1),
                       ("successful", Json.num 0),
                       ("timestamp", Json.num 0)]⟩,
       [CoreCall.validate (Json.str "tok"), CoreCall.timestamp]) := rfl
  rw [h]
  exact ⟨rfl, by simp⟩

/-- C3 amended: for `/api/decode`, a missing/falsy token or encrypted URL
is detected before any core call and surfaced as 400; for
`/api/batch-decode`, a missing token or a missing/non-list urls array is
likewise detected before any core call and surfaced as 400; but a
malformed batch entry is only detected after the token has been validated
(a core call): it is surfaced as a per-item failure inside a 200 response,
and `decode_url`/`generate_playable_url` are never invoked for it. -/
theorem claim_C3_amended_input_errors (c : Core) (w : World) (data u : Json)
    (hobj : data.isObj = true) :
    (data.truthy = true → (data.get "token").truthy = false →
       decode_video_url c w data =
         (errResp 400 "Token is required" "MISSING_TOKEN", []) ∧
       batch_decode_urls c w data =
         (errResp 400 "Token is required" "MISSING_TOKEN", [])) ∧
    ((data.get "token").truthy = true →
       (data.get "encrypted_url").truthy = false →
       decode_video_url c w data =
         (errResp 400 "Encrypted URL is required" "MISSING_URL", [])) ∧
    ((data.get "token").truthy = true →
       (data.getD "urls" (Json.arr [])).truthy = false ∨
         (data.getD "urls" (Json.arr [])).isArr = false →
       batch_decode_urls c w data =
         (errResp 400 "URLs array is required" "MISSING_URLS", [])) ∧
    (u.isObj = true → (u.get "encrypted_url").truthy = false →
       batchItem c w (data.get "token") u =
         (Except.ok (failItem (u.get "video_id") "Missing encrypted_url"),
          [])) := by
  refine ⟨?_, ?_, ?_, ?_⟩
  · intro htr ht
    constructor
    · simp [decode_video_url, htr, Json.getE_obj hobj, ht]
    · simp [batch_decode_urls, htr, Json.getE_obj hobj, Json.getDE_obj hobj, ht]
  · intro ht hu
    simp [decode_video_url, Json.truthy_of_get ht, Json.getE_obj hobj, ht, hu]
  · intro ht hurls
    have htr : data.truthy = true := Json.truthy_of_get ht
    rcases hurls with h | h <;>
      simp [batch_decode_urls, htr, Json.getE_obj hobj, Json.getDE_obj hobj,
            ht, h]
  · intro hobju hu
    simp [batchItem, batchItemTry, Json.getE_obj hobju, hu]

/-- C3 amended witness: a payload with an `encrypted_url` but no token is
rejected 400 `MISSING_TOKEN` by `/api/decode` with no core call, and an
object batch entry without `encrypted_url` yields a per-item failure with
no core call for that entry. -/
theorem claim_C3_amended_witness :
    decode_video_url specCore 0 dataNoToken =
      (errResp 400 "Token is required" "MISSING_TOKEN", []) ∧
    batchItem specCore 0 (dataNoToken.get "token") entryNoUrl =
      (Except.ok (failItem (Json.str "vX") "Missing encrypted_url"), []) := by
  have h := claim_C3_amended_input_errors specCore 0 dataNoToken entryNoUrl rfl
  exact ⟨(h.1 rfl rfl).1, h.2.2.2 rfl rfl⟩

/-- C4: when `decode_url` returns its sentinel (a falsy value, e.g. the
empty string), `/api/decode` answers 400 with code `DECODE_FAILED` — it is
not escalated to the 500 fault channel, and `generate_playable_url` is not
called. -/
theorem claim_C4_decode_sentinel_maps_to_400 (c : Core) (w : World)
    (data d : Json)
    (hobj : data.isObj = true)
    (ht : (data.get "token").truthy = true)
    (hu : (data.get "encrypted_url").truthy = true)
    (hv : c.validate_token w (data.get "token") = Except.ok true)
    (hd : c.decode_url w (data.get "encrypted_url") (data.get "token") =
      Except.ok d)
    (hsent : d.truthy = false) :
    decode_video_url c w data =
      (errResp 400 "Failed to decode URL" "DECODE_FAILED",
       [CoreCall.validate (data.get "token"),
        CoreCall.decode (data.get "encrypted_url") (data.get "token")]) := by
  simp [decode_video_url, Json.truthy_of_get ht, Json.getE_obj hobj, ht, hu,
        hv, hd, hsent]

/-- C4 witness: the undecodable URL `"plain"` with a valid token gets the
400 `DECODE_FAILED` response backed by the sentinel, not a 500. -/
theorem claim_C4_witness :
    decode_video_url specCore 0 dataC4 =
      (errResp 400 "Failed to decode URL" "DECODE_FAILED",
       [CoreCall.validate (Json.str "tok"),
        CoreCall.decode (Json.str "plain") (Json.str "tok")]) :=
  claim_C4_decode_sentinel_maps_to_400 specCore 0 dataC4 (Json.str "")
    rfl rfl rfl rfl rfl rfl

/-- C5 counterexample: in a batch whose first entry is the non-object
`"bad"` and whose second entry is well-formed and decodable, the first
entry's failure aborts the whole request with a 500 after only the token
validation — the second entry is never processed (no decode/sign call, no
results list), although on its own it would succeed.  The exception raised
by `url_data.get('encrypted_url')` is re-raised inside the `except` clause
by `url_data.get('video_id')` and escapes the loop. -/
theorem claim_C5_counterexample :
    batch_decode_urls specCore 0 dataC5 =
      (internalErrorResp, [CoreCall.validate (Json.str "tok")]) ∧
    batchItem specCore 0 (Json.str "tok") goodEntry =
      (Except.ok (successItem (Json.str "g1") (Json.str "vid?sig=tok-0")
                    (Json.str "vid")),
       [CoreCall.decode (Json.str "enc:vid") (Json.str "tok"),
        CoreCall.sign (Json.str "vid") (Json.str "tok")]) := by
  constructor <;> rfl

/-- C5 amended: provided every batch entry is a JSON object, per-item
outcomes are fully independent — the loop never raises, and its results
and core calls are the pointwise images of the individual entries (an
entry that is not an object instead aborts the whole batch, because the
`except` clause itself raises). -/
theorem claim_C5_amended_object_entries_independent (c : Core) (w : World)
    (token : Json) (us : List Json)
    (h : ∀ u ∈ us, u.isObj = true) :
    batchLoop c w token us =
      (Except.ok (us.map (itemRes c w token)),
       (us.map (itemTrace c w token)).flatten) :=
  batchLoop_all_obj c w token h

/-- C5 amended witness: a two-entry batch (one decodable, one with an
undecodable URL) processes both entries pointwise. -/
theorem claim_C5_amended_witness :
    batchLoop specCore 0 (Json.str "tok") usC5 =
      (Except.ok (usC5.map (itemRes specCore 0 (Json.str "tok"))),
       (usC5.map (itemTrace specCore 0 (Json.str "tok"))).flatten) :=
  claim_C5_amended_object_entries_independent specCore 0 (Json.str "tok")
    usC5 (by simp [usC5, goodEntry, Json.isObj])

/-- C6: on a well-formed batch request with a validated token, the 200
response reports `total` equal to the number of submitted URL entries and
`successful` equal to the number of result entries whose `success` flag is
truthy — and every result's `success` flag is a boolean, so the truthy
count is exactly the count of `success == true` entries. -/
theorem claim_C6_batch_counters (c : Core) (w : World) (data : Json)
    (us rs : List Json) (tr : List CoreCall) (ts : Json)
    (hobj : data.isObj = true)
    (ht : (data.get "token").truthy = true)
    (hurls : data.getD "urls" (Json.arr []) = Json.arr us)
    (hne : us ≠ [])
    (hv : c.validate_token w (data.get "token") = Except.ok true)
    (hloop : batchLoop c w (data.get "token") us = (Except.ok rs, tr))
    (hts : c.get_timestamp w = Except.ok ts) :
    (batch_decode_urls c w data).1.body.get "total" = Json.num us.length ∧
    (batch_decode_urls c w data).1.body.get "successful" =
      Json.num (rs.filter (fun r => (r.get "success").truthy)).length ∧
    (∀ r ∈ rs, ((r.get "success").truthy = true ↔
       r.get "success" = Json.bool true)) := by
  have h200 := batch_route_200 c w data us rs tr ts hobj ht hurls hne hv
    hloop hts
  refine ⟨?_, ?_, ?_⟩
  · rw [h200]
    simp [Json.get, Json.lookupKey]
  · rw [h200]
    simp [Json.get, Json.lookupKey]
  · intro r hr
    rcases batchLoop_ok_success c w (data.get "token") hloop r hr with h | h <;>
      simp [h, Json.truthy]

/-- C6 witness: five submitted URLs of which three decode and two are
malformed yield `total == 5` and `successful == 3`. -/
theorem claim_C6_witness :
    (batch_decode_urls specCore 0 dataC6).1.body.get "total" = Json.num 5 ∧
    (batch_decode_urls specCore 0 dataC6).1.body.get "successful" =
      Json.num 3 := by
  have h := claim_C6_batch_counters specCore 0 dataC6 urlsC6 rsC6 trC6
    (Json.num 0) rfl rfl rfl (by simp [urlsC6]) rfl rfl rfl
  refine ⟨h.1, ?_⟩
  rw [h.2.1]
  rfl

/-- C7: the simple `GET /api` entry point hands the plaintext URL to
`generate_playable_url` directly — its trace is exactly one validation
followed by one sign call on that URL — and no request to this endpoint
ever triggers a `decode_url` call: decoding and signing are independently
invokable. -/
theorem claim_C7_simple_signs_directly (c : Core) (w : World)
    (vu tk : String)
    (hvu : vu ≠ "") (htk : tk ≠ "")
    (hv : c.validate_token w (Json.str tk) = Except.ok true) :
    (∀ r, c.generate_playable_url w (Json.str vu) (Json.str tk) =
        Except.ok r →
      decode_video_url_simple c w (some vu) (some tk) =
        (⟨200, Json.obj [("status", Json.str "ok"),
                         ("success", Json.bool true), ("url", r)]⟩,
         [CoreCall.validate (Json.str tk),
          CoreCall.sign (Json.str vu) (Json.str tk)])) ∧
    (∀ (vu2 tk2 : Option String) (u t : Json),
       CoreCall.decode u t ∉ (decode_video_url_simple c w vu2 tk2).2) := by
  constructor
  · intro r hr
    have h1 : vu.isEmpty = false := by
      cases h : vu.isEmpty
      · rfl
      · exact absurd ((String.isEmpty_iff vu).mp h) hvu
    have h2 : tk.isEmpty = false := by
      cases h : tk.isEmpty
      · rfl
      · exact absurd ((String.isEmpty_iff tk).mp h) htk
    simp [decode_video_url_simple, paramJson, Json.truthy, h1, h2, hv, hr]
  · intro vu2 tk2 u t h
    rcases simple_route_calls c w vu2 tk2 _ h with ⟨t2, he⟩ | ⟨u2, t2, he, _⟩
    · simp at he
    · simp at he

/-- C7 witness: a plaintext URL is signed directly; the only core calls
are the validation and the sign call on that very URL. -/
theorem claim_C7_witness :
    decode_video_url_simple specCore 0 (some "http://v/m.mp4")
      (some "tok") =
      (⟨200, Json.obj [("status", Json.str "ok"),
                       ("success", Json.bool true),
                       ("url", Json.str "http://v/m.mp4?sig=tok-0")]⟩,
       [CoreCall.validate (Json.str "tok"),
        CoreCall.sign (Json.str "http://v/m.mp4") (Json.str "tok")]) := by
  have h := claim_C7_simple_signs_directly specCore 0 "http://v/m.mp4" "tok"
    (by decide) (by decide) rfl
  exact h.1 (Json.str "http://v/m.mp4?sig=tok-0") rfl

/-- C8: `decode_url` of the modelled decoder is deterministic in the pair
(`encrypted_url`, `token`): its result does not depend on the invocation
instant / outside world, so two invocations on the same pair always agree. -/
theorem claim_C8_decode_deterministic (w1 w2 : World) (e t : Json) :
    specCore.decode_url w1 e t = specCore.decode_url w2 e t := rfl

/-- C9: a well-formed batch request (object payload, truthy token,
non-empty urls list of object entries) with a validated token is always
answered 200 with top-level `success == true`, whatever the per-item
outcomes — nothing in the hypotheses constrains whether any item
decodes. -/
theorem claim_C9_batch_success_envelope (c : Core) (w : World)
    (data : Json) (us : List Json) (ts : Json)
    (hobj : data.isObj = true)
    (ht : (data.get "token").truthy = true)
    (hurls : data.getD "urls" (Json.arr []) = Json.arr us)
    (hne : us ≠ [])
    (hentries : ∀ u ∈ us, u.isObj = true)
    (hv : c.validate_token w (data.get "token") = Except.ok true)
    (hts : c.get_timestamp w = Except.ok ts) :
    (batch_decode_urls c w data).1.status = 200 ∧
    (batch_decode_urls c w data).1.body.get "success" = Json.bool true := by
  have h200 := batch_route_200 c w data us
    (us.map (itemRes c w (data.get "token")))
    ((us.map (itemTrace c w (data.get "token"))).flatten) ts hobj ht hurls
    hne hv (batchLoop_all_obj c w (data.get "token") hentries) hts
  rw [h200]
  exact ⟨rfl, by simp [Json.get, Json.lookupKey]⟩

/-- C9 witness: a batch in which every submitted item fails to decode is
still answered 200 with `success == true` (and zero successes). -/
theorem claim_C9_witness :
    (batch_decode_urls specCore 0 dataC9).1.status = 200 ∧
    (batch_decode_urls specCore 0 dataC9).1.body.get "success" =
      Json.bool true ∧
    (batch_decode_urls specCore 0 dataC9).1.body.get "successful" =
      Json.num 0 := by
  have h := claim_C9_batch_success_envelope specCore 0 dataC9 urlsC9
    (Json.num 0) rfl rfl rfl (by simp [urlsC9])
    (by simp [urlsC9, Json.isObj]) rfl rfl
  exact ⟨h.1, h.2, rfl⟩

/-- C10: on a successful batch response the `results` list has exactly one
entry per submitted URL entry, in input order: it is the pointwise image
of the input list, so `results[i]` is the outcome of `urls[i]` and the
lengths agree. -/
theorem claim_C10_results_pointwise (c : Core) (w : World) (data : Json)
    (us rs : List Json) (tr : List CoreCall) (ts : Json)
    (hobj : data.isObj = true)
    (ht : (data.get "token").truthy = true)
    (hurls : data.getD "urls" (Json.arr []) = Json.arr us)
    (hne : us ≠ [])
    (hv : c.validate_token w (data.get "token") = Except.ok true)
    (hloop : batchLoop c w (data.get "token") us = (Except.ok rs, tr))
    (hts : c.get_timestamp w = Except.ok ts) :
    (batch_decode_urls c w data).1.body.get "results" = Json.arr rs ∧
    rs = us.map (itemRes c w (data.get "token")) ∧
    rs.length = us.length := by
  have h200 := batch_route_200 c w data us rs tr ts hobj ht hurls hne hv
    hloop hts
  have hmap := batchLoop_ok_map c w (data.get "token") hloop
  refine ⟨?_, hmap, ?_⟩
  · rw [h200]
    simp [Json.get, Json.lookupKey]
  · rw [hmap]
    exact List.length_map us _

/-- C10 witness: the five-entry batch yields five results, pointwise in
input order. -/
theorem claim_C10_witness :
    (batch_decode_urls specCore 0 dataC6).1.body.get "results" =
      Json.arr rsC6 ∧
    rsC6 = urlsC6.map (itemRes specCore 0 (Json.str "tok")) ∧
    rsC6.length = urlsC6.length := by
  have h := claim_C10_results_pointwise specCore 0 dataC6 urlsC6 rsC6 trC6
    (Json.num 0) rfl rfl rfl (by simp [urlsC6]) rfl rfl rfl
  exact h

/-- C2 witness: in a concrete `/api/validate-token` request whose trace
does contain a `get_token_info` call, that token's validation returned
true. -/
theorem claim_C2_witness :
    specCore.validate_token 0 (Json.str "tok") = Except.ok true ∧
    CoreCall.tokenInfo (Json.str "tok") ∈
      (validate_token specCore 0
        (Json.obj [("token", Json.str "tok")])).2 := by
  have hmem : CoreCall.tokenInfo (Json.str "tok") ∈
      (validate_token specCore 0
        (Json.obj [("token", Json.str "tok")])).2 := by
    have h : (validate_token specCore 0
        (Json.obj [("token", Json.str "tok")])).2 =
        [CoreCall.validate (Json.str "tok"),
         CoreCall.tokenInfo (Json.str "tok"), CoreCall.timestamp] := rfl
    rw [h]
    simp
  exact ⟨(claim_C2_token_info_after_validation specCore 0
    (Json.obj [("token", Json.str "tok")]) Json.null Json.null none
    none).1 (Json.str "tok") hmem, hmem⟩
